import Mathlib

/-!
Shallow embedding of the core timing/schedule engine of the IEEE 802.11ad MAC
performance-evaluation framework (`core/timeslot.py`, `core/helpers.py`,
`core/duration_generator.py`), together with theorems settling the
specification claims about it.

Conventions of the embedding:
 - Python integers (nanosecond times, byte counts) become `ℤ` or `ℕ`.
 - Python real arithmetic becomes exact `ℚ` arithmetic; `numpy.round` and the
   Python built-in `round` (both round-half-to-even) become `roundHalfEven`;
   `numpy.ceil` / `math.ceil` become `Int.ceil`; Python `int(...)` truncation
   toward zero becomes `pyInt`.
 - Python functions that raise become `Except`-valued functions; exception
   classes become explicit error inductives.
 - The internal `numpy.random.randint` draw of `get_number_of_bft_allocations`
   becomes an explicit extra argument, so that dependence of the output on the
   draw is expressible.
-/

namespace Mac80211ad

/-- Scheduling errors raised by the interval allocator in `core/timeslot.py`:
`RuntimeError('Insufficient time')` and
`RuntimeError('Tried fitting overlapping timeslot')`. -/
inductive SchedulingError where
  | insufficientTime
  | overlappingAllocation
  deriving DecidableEq, Repr

/-- A free time range `(t_start, t_end)` as kept in
`AvailableTime.available_time` (`core/timeslot.py`); bounds are inclusive in
the containment checks of `get_available_time_idx`. -/
abbrev TimeRange := ℤ × ℤ

/-- Containment check used by `AvailableTime.get_available_time_idx`:
`t >= at[0] and t <= at[1]` (one component of the `check` tuple). -/
def memPt (t : ℤ) (r : TimeRange) : Prop := t ≥ r.1 ∧ t ≤ r.2

instance (t : ℤ) (r : TimeRange) : Decidable (memPt t r) :=
  inferInstanceAs (Decidable (_ ∧ _))

/-- A range `[a, b]` is fully contained in the free range `r` (both components
of the `check` tuple hold). -/
def containsRange (r : TimeRange) (a b : ℤ) : Prop := memPt a r ∧ memPt b r

instance (r : TimeRange) (a b : ℤ) : Decidable (containsRange r a b) :=
  inferInstanceAs (Decidable (_ ∧ _))

/-- `AvailableTime.__init__(t_start, t_end)`: the tracker starts with one free
range covering the whole interval. -/
def availableTimeInit (t_start t_end : ℤ) : List TimeRange := [(t_start, t_end)]

/-- `AvailableTime.get_available_time_idx(t_start, t_end)`
(`core/timeslot.py` lines 150-169): scan the free ranges in order; a range
containing both endpoints yields its index; a range containing exactly one
endpoint raises `RuntimeError('Tried fitting overlapping timeslot')`; if the
scan is exhausted, raise `RuntimeError('Insufficient time')`. -/
def get_available_time_idx : List TimeRange → ℤ → ℤ → Except SchedulingError ℕ
  | [], _, _ => .error .insufficientTime
  | at_ :: rest, t_start, t_end =>
    if memPt t_start at_ ∧ memPt t_end at_ then .ok 0
    else if memPt t_start at_ ∨ memPt t_end at_ then .error .overlappingAllocation
    else
      match get_available_time_idx rest t_start t_end with
      | .ok at_idx => .ok (at_idx + 1)
      | .error err => .error err

/-- `AvailableTime.allocate_available_time(t_start, t_end)`
(`core/timeslot.py` lines 122-148): find the free range containing the
requested range, then update it — `pop` on an exact match, tuple replacement
when one edge matches, and a slice splice `self.available_time[:idx] + update +
self.available_time[idx+1:]` when the request is nested strictly inside.
The `none` branch of the index lookup is unreachable (the returned index is
always in bounds, see `get_available_time_idx_ok`). -/
def allocate_available_time (l : List TimeRange) (t_start t_end : ℤ) :
    Except SchedulingError (List TimeRange) :=
  match get_available_time_idx l t_start t_end with
  | .error err => .error err
  | .ok idx =>
    match l[idx]? with
    | none => .error .insufficientTime
    | some (s, e) =>
      if t_start = s ∧ t_end = e then .ok (l.eraseIdx idx)
      else if t_start = s then .ok (l.set idx (t_end, e))
      else if t_end = e then .ok (l.set idx (s, t_start))
      else .ok (l.take idx ++ [(s, t_start), (t_end, e)] ++ l.drop (idx + 1))

/-- Spec-side description of the update `allocate_available_time` applies to
the containing free range (spec §4.3 step 2): exact match removes it, a match
touching one edge shrinks it, an interior match splits it into two ranges. -/
def updateRange (r : TimeRange) (t_start t_end : ℤ) : List TimeRange :=
  if t_start = r.1 ∧ t_end = r.2 then []
  else if t_start = r.1 then [(t_end, r.2)]
  else if t_end = r.2 then [(r.1, t_start)]
  else [(r.1, t_start), (t_end, r.2)]

/-- FreeTimeTracker invariant from the spec data model: every stored range is
well-formed and the ranges are sorted and pairwise disjoint (each range ends
strictly before the next begins). -/
def Separated (l : List TimeRange) : Prop :=
  (∀ r ∈ l, r.1 ≤ r.2) ∧ l.Chain' (fun r r' => r.2 < r'.1)

instance (l : List TimeRange) : Decidable (Separated l) :=
  inferInstanceAs (Decidable (_ ∧ _))

/-- Total amount of free time held by the tracker. -/
def totalFreeTime (l : List TimeRange) : ℤ := (l.map (fun r => r.2 - r.1)).sum

/-- If no free range contains either endpoint, the index scan fails with
`InsufficientTime`. -/
theorem get_available_time_idx_none (l : List TimeRange) (a b : ℤ)
    (h : ∀ r ∈ l, ¬ memPt a r ∧ ¬ memPt b r) :
    get_available_time_idx l a b = .error .insufficientTime := by
  induction l with
  | nil => rfl
  | cons hd tl ih =>
    obtain ⟨ha, hb⟩ := h hd (List.mem_cons_self hd tl)
    rw [get_available_time_idx, if_neg (by tauto), if_neg (by tauto),
      ih (fun r hr => h r (List.mem_cons_of_mem hd hr))]

/-- If some free range touches an endpoint but no free range contains the
whole requested range, the index scan fails with `OverlappingAllocation`. -/
theorem get_available_time_idx_overlap (l : List TimeRange) (a b : ℤ)
    (hnc : ∀ r ∈ l, ¬ containsRange r a b)
    (ht : ∃ r ∈ l, memPt a r ∨ memPt b r) :
    get_available_time_idx l a b = .error .overlappingAllocation := by
  induction l with
  | nil => simp at ht
  | cons hd tl ih =>
    rw [get_available_time_idx,
      if_neg (show ¬ (memPt a hd ∧ memPt b hd) from hnc hd (List.mem_cons_self hd tl))]
    by_cases htouch : memPt a hd ∨ memPt b hd
    · rw [if_pos htouch]
    · rw [if_neg htouch,
        ih (fun r hr => hnc r (List.mem_cons_of_mem hd hr))
          (by
            obtain ⟨r, hr, hor⟩ := ht
            rcases List.mem_cons.mp hr with heq | hmem
            · exact absurd (heq ▸ hor) htouch
            · exact ⟨r, hmem, hor⟩)]

/-- A successfully returned index is in bounds, the range there contains the
requested range, and no earlier range touches either endpoint. -/
theorem get_available_time_idx_ok (l : List TimeRange) (a b : ℤ) (i : ℕ)
    (h : get_available_time_idx l a b = .ok i) :
    ∃ r, l[i]? = some r ∧ containsRange r a b ∧
      ∀ j r', j < i → l[j]? = some r' → ¬ memPt a r' ∧ ¬ memPt b r' := by
  induction l generalizing i with
  | nil => simp [get_available_time_idx] at h
  | cons hd tl ih =>
    rw [get_available_time_idx] at h
    by_cases hc : memPt a hd ∧ memPt b hd
    · rw [if_pos hc] at h
      obtain rfl : (0 : ℕ) = i := by simpa using h
      exact ⟨hd, by simp, hc, fun j r' hj => absurd hj (Nat.not_lt_zero j)⟩
    · rw [if_neg hc] at h
      by_cases htouch : memPt a hd ∨ memPt b hd
      · rw [if_pos htouch] at h; exact absurd h (by simp)
      · rw [if_neg htouch] at h
        cases hrec : get_available_time_idx tl a b with
        | error err => rw [hrec] at h; exact absurd h (by simp)
        | ok i0 =>
          rw [hrec] at h
          obtain rfl : i0 + 1 = i := by simpa using h
          obtain ⟨r, hget, hcont, hearlier⟩ := ih i0 hrec
          refine ⟨r, by simpa using hget, hcont, ?_⟩
          intro j r' hj hj'
          cases j with
          | zero =>
            obtain rfl : hd = r' := by simpa using hj'
            exact ⟨fun hmem => htouch (Or.inl hmem), fun hmem => htouch (Or.inr hmem)⟩
          | succ j0 =>
            exact hearlier j0 r' (Nat.lt_of_succ_lt_succ hj) (by simpa using hj')

/-- A separated state stays separated after dropping its head. -/
theorem Separated.tail {hd : TimeRange} {tl : List TimeRange}
    (hsep : Separated (hd :: tl)) : Separated tl :=
  ⟨fun r hr => hsep.1 r (List.mem_cons_of_mem hd hr),
    (List.chain'_cons'.mp hsep.2).2⟩

/-- In a separated state, the head range ends strictly before every later
range begins. -/
theorem Separated.head_lt {hd : TimeRange} {tl : List TimeRange}
    (hsep : Separated (hd :: tl)) : ∀ r ∈ tl, hd.2 < r.1 := by
  induction tl generalizing hd with
  | nil => intro r hr; simp at hr
  | cons x rest ih =>
    intro r hr
    have hhx : hd.2 < x.1 := by
      rcases List.chain'_cons.mp hsep.2 with ⟨h1, _⟩; exact h1
    rcases List.mem_cons.mp hr with rfl | hmem
    · exact hhx
    · have hx : x.1 ≤ x.2 := hsep.1 x (by simp)
      have := ih hsep.tail r hmem
      omega

/-- On a separated state, if some free range fully contains the requested
range, the index scan finds it. -/
theorem get_available_time_idx_finds (l : List TimeRange) (a b : ℤ)
    (hsep : Separated l) (hab : a ≤ b)
    (hex : ∃ r ∈ l, containsRange r a b) :
    ∃ i r, get_available_time_idx l a b = .ok i ∧ l[i]? = some r ∧
      containsRange r a b := by
  induction l with
  | nil => simp at hex
  | cons hd tl ih =>
    by_cases hc : memPt a hd ∧ memPt b hd
    · exact ⟨0, hd, by rw [get_available_time_idx, if_pos hc], by simp, hc⟩
    · obtain ⟨r, hr, hcont⟩ := hex
      have hrtl : r ∈ tl := by
        rcases List.mem_cons.mp hr with heq | hmem
        · exact absurd (heq ▸ hcont) hc
        · exact hmem
      -- the containing range sits strictly after `hd`, so `hd` touches neither endpoint
      have hgap : hd.2 < r.1 := hsep.head_lt r hrtl
      have hra : r.1 ≤ a := hcont.1.1
      have htouch : ¬ (memPt a hd ∨ memPt b hd) := by
        rintro (⟨_, ha2⟩ | ⟨_, hb2⟩) <;> omega
      obtain ⟨i, r', heq, hget, hcont'⟩ := ih hsep.tail ⟨r, hrtl, hcont⟩
      refine ⟨i + 1, r', ?_, by simpa using hget, hcont'⟩
      rw [get_available_time_idx, if_neg hc, if_neg htouch, heq]

/-- Decomposition of a list at a valid index. -/
theorem list_eq_take_cons_drop {α : Type} (l : List α) (i : ℕ) (r : α)
    (h : l[i]? = some r) : l = l.take i ++ r :: l.drop (i + 1) := by
  obtain ⟨hi, hr⟩ := List.getElem?_eq_some.mp h
  calc l = l.take i ++ l.drop i := (List.take_append_drop i l).symm
    _ = l.take i ++ r :: l.drop (i + 1) := by
      rw [List.drop_eq_getElem_cons hi, hr]

/-- Unfolding equation for `allocate_available_time` when the index scan
succeeds. -/
theorem allocate_eq_of_idx_ok (l : List TimeRange) (a b : ℤ) (i : ℕ) (s e : ℤ)
    (hidx : get_available_time_idx l a b = .ok i) (hget : l[i]? = some (s, e)) :
    allocate_available_time l a b =
      if a = s ∧ b = e then .ok (l.eraseIdx i)
      else if a = s then .ok (l.set i (b, e))
      else if b = e then .ok (l.set i (s, a))
      else .ok (l.take i ++ [(s, a), (b, e)] ++ l.drop (i + 1)) := by
  simp only [allocate_available_time, hidx, hget]

/-- Unfolding equation for `allocate_available_time` when the index scan
fails: the error propagates. -/
theorem allocate_eq_of_idx_error (l : List TimeRange) (a b : ℤ)
    (err : SchedulingError) (hidx : get_available_time_idx l a b = .error err) :
    allocate_available_time l a b = .error err := by
  unfold allocate_available_time
  rw [hidx]

/-- Any successful allocation splits the state at the containing free range
and replaces that range by `updateRange`. -/
theorem allocate_ok_shape (l : List TimeRange) (a b : ℤ) (l' : List TimeRange)
    (h : allocate_available_time l a b = .ok l') :
    ∃ pre r post, l = pre ++ r :: post ∧ containsRange r a b ∧
      l' = pre ++ updateRange r a b ++ post := by
  cases hidx : get_available_time_idx l a b with
  | error err => rw [allocate_eq_of_idx_error l a b err hidx] at h; exact absurd h (by simp)
  | ok i =>
    obtain ⟨r, hget, hcont, _⟩ := get_available_time_idx_ok l a b i hidx
    obtain ⟨s, e⟩ := r
    have hi : i < l.length := (List.getElem?_eq_some.mp hget).1
    rw [allocate_eq_of_idx_ok l a b i s e hidx hget] at h
    refine ⟨l.take i, (s, e), l.drop (i + 1),
      list_eq_take_cons_drop l i (s, e) hget, hcont, ?_⟩
    by_cases h1 : a = s ∧ b = e
    · rw [if_pos h1] at h
      obtain rfl : l.eraseIdx i = l' := by simpa using h
      rw [List.eraseIdx_eq_take_drop_succ, updateRange, if_pos (by simpa using h1)]
      simp
    · rw [if_neg h1] at h
      by_cases h2 : a = s
      · rw [if_pos h2] at h
        obtain rfl : l.set i (b, e) = l' := by simpa using h
        rw [List.set_eq_take_cons_drop _ hi, updateRange,
          if_neg (by simpa using h1), if_pos (by simpa using h2)]
        simp
      · rw [if_neg h2] at h
        by_cases h3 : b = e
        · rw [if_pos h3] at h
          obtain rfl : l.set i (s, a) = l' := by simpa using h
          rw [List.set_eq_take_cons_drop _ hi, updateRange,
            if_neg (by simpa using h1), if_neg (by simpa using h2),
            if_pos (by simpa using h3)]
          simp
        · rw [if_neg h3] at h
          obtain rfl : l.take i ++ [(s, a), (b, e)] ++ l.drop (i + 1) = l' := by
            simpa using h
          rw [updateRange, if_neg (by simpa using h1), if_neg (by simpa using h2),
            if_neg (by simpa using h3)]

/-- Replacing one range of a separated state by a block of well-formed
sub-ranges that stay inside it (and are themselves chained) keeps the state
separated. -/
theorem separated_replace (pre post upd : List TimeRange) (r : TimeRange)
    (hsep : Separated (pre ++ r :: post))
    (hwf : ∀ u ∈ upd, r.1 ≤ u.1 ∧ u.1 ≤ u.2 ∧ u.2 ≤ r.2)
    (hch : upd.Chain' (fun x y => x.2 < y.1)) :
    Separated (pre ++ upd ++ post) := by
  obtain ⟨hwf0, hchain0⟩ := hsep
  have hr : r.1 ≤ r.2 := hwf0 r (by simp)
  rw [List.chain'_append] at hchain0
  obtain ⟨hcpre, hcrpost, hlink⟩ := hchain0
  obtain ⟨hrhead, hcpost⟩ := List.chain'_cons'.mp hcrpost
  constructor
  · intro u hu
    rcases List.mem_append.mp hu with hu' | hupost
    · rcases List.mem_append.mp hu' with hupre | huupd
      · exact hwf0 u (List.mem_append_left _ hupre)
      · obtain ⟨_, h2, _⟩ := hwf u huupd
        exact h2
    · exact hwf0 u (List.mem_append_right _ (List.mem_cons_of_mem r hupost))
  · rw [List.append_assoc, List.chain'_append]
    refine ⟨hcpre, ?_, ?_⟩
    · rw [List.chain'_append]
      refine ⟨hch, hcpost, ?_⟩
      intro x hx y hy
      obtain ⟨_, _, hx2⟩ := hwf x (List.mem_of_mem_getLast? hx)
      exact lt_of_le_of_lt hx2 (hrhead y hy)
    · intro x hx y hy
      have hxr : x.2 < r.1 := hlink x hx r (by simp)
      cases upd with
      | nil =>
        simp only [List.nil_append] at hy
        exact lt_of_lt_of_le hxr (le_trans hr (le_of_lt (hrhead y hy)))
      | cons u us =>
        simp only [List.cons_append, List.head?_cons, Option.mem_def,
          Option.some.injEq] at hy
        obtain ⟨hu1, _, _⟩ := hwf u (by simp)
        subst hy
        exact lt_of_lt_of_le hxr hu1

/-- The pieces `updateRange` produces lie inside the containing range and are
chained; their total length is at most that of the replaced range. -/
theorem updateRange_wf (r : TimeRange) (a b : ℤ)
    (hcont : containsRange r a b) (hab : a ≤ b) :
    (∀ u ∈ updateRange r a b, (a < b → r.1 ≤ u.1 ∧ u.1 ≤ u.2 ∧ u.2 ≤ r.2)) ∧
    (a < b → (updateRange r a b).Chain' (fun x y => x.2 < y.1)) ∧
    totalFreeTime (updateRange r a b) ≤ r.2 - r.1 := by
  obtain ⟨⟨ha1, ha2⟩, ⟨hb1, hb2⟩⟩ := hcont
  unfold updateRange
  by_cases h1 : a = r.1 ∧ b = r.2
  · rw [if_pos h1]
    refine ⟨by simp, by simp, ?_⟩
    simp only [totalFreeTime, List.map_nil, List.sum_nil]
    omega
  · rw [if_neg h1]
    by_cases h2 : a = r.1
    · rw [if_pos h2]
      refine ⟨?_, by simp, ?_⟩
      · intro u hu hlt
        simp only [List.mem_singleton] at hu
        subst hu; simp only []
        omega
      · simp only [totalFreeTime, List.map_cons, List.map_nil, List.sum_cons,
          List.sum_nil]
        omega
    · rw [if_neg h2]
      by_cases h3 : b = r.2
      · rw [if_pos h3]
        refine ⟨?_, by simp, ?_⟩
        · intro u hu hlt
          simp only [List.mem_singleton] at hu
          subst hu; simp only []
          omega
        · simp only [totalFreeTime, List.map_cons, List.map_nil, List.sum_cons,
            List.sum_nil]
          omega
      · rw [if_neg h3]
        refine ⟨?_, ?_, ?_⟩
        · intro u hu hlt
          rcases List.mem_cons.mp hu with rfl | hu'
          · simp only []; omega
          · simp only [List.mem_singleton] at hu'
            subst hu'; simp only []
            omega
        · intro hlt
          exact List.chain'_cons.mpr ⟨hlt, List.chain'_singleton _⟩
        · simp only [totalFreeTime, List.map_cons, List.map_nil, List.sum_cons,
            List.sum_nil]
          omega

/-- `totalFreeTime` is additive over concatenation. -/
theorem totalFreeTime_append (l1 l2 : List TimeRange) :
    totalFreeTime (l1 ++ l2) = totalFreeTime l1 + totalFreeTime l2 := by
  simp [totalFreeTime]

/-- C1: for every FreeTimeTracker state satisfying the spec invariant
(sorted, disjoint free ranges) and every requested range `[a, b]`: allocation
succeeds exactly when some free range fully contains `[a, b]`; if no free
range contains either endpoint it fails with `InsufficientTime`; if a free
range touches `[a, b]` while no free range fully contains it, it fails with
`OverlappingAllocation`; and on success the containing range is updated in
place — an exact match removes it, a match touching one edge shrinks it, and
an interior match splits it into two ranges (`updateRange`). -/
theorem claim_C1_allocate_correct (l : List TimeRange) (a b : ℤ)
    (hsep : Separated l) (hab : a ≤ b) :
    ((∃ l', allocate_available_time l a b = .ok l') ↔
      ∃ r ∈ l, containsRange r a b) ∧
    ((∀ r ∈ l, ¬ memPt a r ∧ ¬ memPt b r) →
      allocate_available_time l a b = .error .insufficientTime) ∧
    ((∀ r ∈ l, ¬ containsRange r a b) → (∃ r ∈ l, memPt a r ∨ memPt b r) →
      allocate_available_time l a b = .error .overlappingAllocation) ∧
    (∀ l', allocate_available_time l a b = .ok l' →
      ∃ pre r post, l = pre ++ r :: post ∧ containsRange r a b ∧
        l' = pre ++ updateRange r a b ++ post) := by
  refine ⟨⟨?_, ?_⟩, ?_, ?_, ?_⟩
  · rintro ⟨l', hl'⟩
    obtain ⟨pre, r, post, hsplit, hcont, _⟩ := allocate_ok_shape l a b l' hl'
    exact ⟨r, by rw [hsplit]; simp, hcont⟩
  · intro hex
    obtain ⟨i, r, hidx, hget, _⟩ :=
      get_available_time_idx_finds l a b hsep hab hex
    obtain ⟨s, e⟩ := r
    rw [allocate_eq_of_idx_ok l a b i s e hidx hget]
    split
    · exact ⟨_, rfl⟩
    · split
      · exact ⟨_, rfl⟩
      · split
        · exact ⟨_, rfl⟩
        · exact ⟨_, rfl⟩
  · intro h
    exact allocate_eq_of_idx_error _ _ _ _ (get_available_time_idx_none l a b h)
  · intro hnc ht
    exact allocate_eq_of_idx_error _ _ _ _
      (get_available_time_idx_overlap l a b hnc ht)
  · exact allocate_ok_shape l a b

/-- Witness for C1: on the tracker `[(0, 10)]` the request `[20, 25]` touches
no free range, and allocation fails with `InsufficientTime`. -/
theorem claim_C1_allocate_correct_witness :
    allocate_available_time [((0 : ℤ), 10)] 20 25 = .error .insufficientTime :=
  (claim_C1_allocate_correct [((0 : ℤ), 10)] 20 25
    ⟨by decide, List.chain'_singleton _⟩ (by decide)).2.1 (by decide)

/-- C2 counterexample: the claim fails as stated for zero-length allocate
calls. On the freshly constructed tracker over `[0, 10]` (which satisfies the
invariant), the zero-length request `[5, 5]` is a successful allocate call —
the code reaches the interior-split branch (`timeslot.py` lines 146-148) and
returns `[(0, 5), (5, 10)]` — but the resulting ranges share the point 5, so
they are not pairwise disjoint and the invariant is violated (a follow-up
request such as `[5, 7]`, fully inside the free range `(5, 10)`, is then
misclassified as overlapping). -/
theorem claim_C2_counterexample :
    Separated (availableTimeInit 0 10) ∧
    allocate_available_time (availableTimeInit 0 10) 5 5 =
      .ok [(0, 5), (5, 10)] ∧
    ¬ Separated [((0 : ℤ), 5), (5, 10)] :=
  ⟨⟨by decide, List.chain'_singleton _⟩, rfl,
    fun h => absurd (List.chain'_cons.mp h.2).1 (lt_irrefl 5)⟩

/-- C2 (amended): the FreeTimeTracker invariant (ranges sorted and pairwise
disjoint) holds after construction and after every successful
positive-length allocate call — a zero-length interior allocation succeeds
but splits a free range into two ranges sharing its boundary point, see the
counterexample — and the total free time never increases across any
successful allocate call, zero-length ones included. -/
theorem claim_C2_invariant (t0 t1 a b : ℤ) (l l' : List TimeRange) :
    (t0 ≤ t1 → Separated (availableTimeInit t0 t1)) ∧
    (Separated l → a < b → allocate_available_time l a b = .ok l' →
      Separated l') ∧
    (a ≤ b → allocate_available_time l a b = .ok l' →
      totalFreeTime l' ≤ totalFreeTime l) := by
  refine ⟨?_, ?_, ?_⟩
  · intro h
    exact ⟨by simpa [availableTimeInit] using h, by simp [availableTimeInit]⟩
  · intro hsep hab hok
    obtain ⟨pre, r, post, rfl, hcont, rfl⟩ := allocate_ok_shape _ a b l' hok
    obtain ⟨hwf, hch, _⟩ := updateRange_wf r a b hcont (le_of_lt hab)
    exact separated_replace pre post _ r hsep (fun u hu => hwf u hu hab) (hch hab)
  · intro hab hok
    obtain ⟨pre, r, post, rfl, hcont, rfl⟩ := allocate_ok_shape _ a b l' hok
    obtain ⟨_, _, hle⟩ := updateRange_wf r a b hcont hab
    have h1 : totalFreeTime (r :: post) = (r.2 - r.1) + totalFreeTime post := by
      simp [totalFreeTime]
    rw [totalFreeTime_append, totalFreeTime_append, totalFreeTime_append, h1]
    omega

/-- Witness for C2: allocating `[2, 5]` out of the freshly constructed tracker
`[(0, 10)]` yields a separated state with no more free time than before. -/
theorem claim_C2_invariant_witness :
    Separated [((0 : ℤ), 2), (5, 10)] ∧
    totalFreeTime [((0 : ℤ), 2), (5, 10)] ≤ totalFreeTime [((0 : ℤ), 10)] :=
  ⟨(claim_C2_invariant 0 10 2 5 [((0 : ℤ), 10)] [(0, 2), (5, 10)]).2.1
      ⟨by decide, List.chain'_singleton _⟩ (by decide) rfl,
    (claim_C2_invariant 0 10 2 5 [((0 : ℤ), 10)] [(0, 2), (5, 10)]).2.2
      (by decide) rfl⟩

/-- C10: a requested range contained in no free range, but one of whose
endpoints coincides with a boundary point of some free range, fails with
`OverlappingAllocation` rather than `InsufficientTime`. -/
theorem claim_C10_boundary_overlap (l : List TimeRange) (a b : ℤ)
    (hwf : ∀ r ∈ l, r.1 ≤ r.2)
    (hnc : ∀ r ∈ l, ¬ containsRange r a b)
    (hbd : ∃ r ∈ l, a = r.1 ∨ a = r.2 ∨ b = r.1 ∨ b = r.2) :
    allocate_available_time l a b = .error .overlappingAllocation := by
  obtain ⟨r, hr, hor⟩ := hbd
  have hle := hwf r hr
  have htouch : memPt a r ∨ memPt b r := by
    rcases hor with h | h | h | h
    · exact Or.inl (by simp only [memPt, ge_iff_le]; omega)
    · exact Or.inl (by simp only [memPt, ge_iff_le]; omega)
    · exact Or.inr (by simp only [memPt, ge_iff_le]; omega)
    · exact Or.inr (by simp only [memPt, ge_iff_le]; omega)
  exact allocate_eq_of_idx_error _ _ _ _
    (get_available_time_idx_overlap l a b hnc ⟨r, hr, htouch⟩)

/-- Witness for C10: `[-5, 0]` lies entirely outside the free range
`(0, 10)` except that its right endpoint equals the range's start; the
allocator reports an overlap, not insufficient time. -/
theorem claim_C10_boundary_overlap_witness :
    allocate_available_time [((0 : ℤ), 10)] (-5) 0 =
      .error .overlappingAllocation :=
  claim_C10_boundary_overlap [((0 : ℤ), 10)] (-5) 0 (by decide) (by decide)
    ⟨(0, 10), by decide, by decide⟩

/-! Constants from `core/constants.py` (IEEE 802.11ad standard values).
The float literals `1.76` and `20e-6` are idealized as the exact decimals
they denote. -/

def PPDU_PREAMBLE_LEN : ℤ := 3328

def PPDU_HEADER_LEN : ℤ := 1024

def PPDU_GI_LENGTH : ℤ := 64

def SYMBOL_RATE_GHZ : ℚ := 44 / 25

def N_CBPB : List ℤ := [448, 896, 1792, 2688]

def CONTROL_PPDU_PREAMBLE_LEN : ℤ := 7552

def CONTROL_PPDU_HEADER_LEN : ℤ := 40

def L_CWD : ℤ := 168

def SIFS_NS : ℤ := 3000

def DIFS_NS : ℤ := 13000

def TXTIME_SSW : ℤ := 14641

def SBIFS_NS : ℤ := 1000

def MBIFS_NS : ℤ := 3 * SIFS_NS

def LBIFS_NS : ℤ := TXTIME_SSW + 2 * SBIFS_NS

def MAX_A_MSDU_LENGTH : ℕ := 7935

def AGC_AND_TRN_LENGTH : ℤ := 5312

/-- Error raised by `calc_a_msdu_length` when the aggregate exceeds the
maximum A-MSDU size. -/
inductive FrameSizeError where
  | sizeExceeded
  deriving DecidableEq, Repr

/-- `calc_a_msdu_length(num_of_subframes, subframe_length)`
(`core/helpers.py` lines 91-111): passthrough when `num_of_subframes <= 1`;
otherwise `n*(2+len) + (n-1)*(len % 4)` (`end_padding = len % 4`), raising
`RuntimeError` when the result exceeds `MAX_A_MSDU_LENGTH`. -/
def calc_a_msdu_length (num_of_subframes subframe_length : ℕ) :
    Except FrameSizeError ℕ :=
  if num_of_subframes ≤ 1 then .ok subframe_length
  else
    if num_of_subframes * (2 + subframe_length) +
        (num_of_subframes - 1) * (subframe_length % 4) > MAX_A_MSDU_LENGTH then
      .error .sizeExceeded
    else
      .ok (num_of_subframes * (2 + subframe_length) +
        (num_of_subframes - 1) * (subframe_length % 4))

/-- C6: `calc_a_msdu_length` returns the subframe length unchanged whenever
`n ≤ 1`; for `n > 1` it returns `n*(2+L) + (n-1)*(L mod 4)` when that value
is at most the maximum A-MSDU length, and fails with the size-exceeded error
exactly when that value exceeds the maximum. -/
theorem claim_C6_a_msdu_length (n L : ℕ) :
    (n ≤ 1 → calc_a_msdu_length n L = .ok L) ∧
    (1 < n → n * (2 + L) + (n - 1) * (L % 4) ≤ MAX_A_MSDU_LENGTH →
      calc_a_msdu_length n L = .ok (n * (2 + L) + (n - 1) * (L % 4))) ∧
    (1 < n → MAX_A_MSDU_LENGTH < n * (2 + L) + (n - 1) * (L % 4) →
      calc_a_msdu_length n L = .error .sizeExceeded) := by
  refine ⟨fun h => ?_, fun h1 h2 => ?_, fun h1 h2 => ?_⟩
  · rw [calc_a_msdu_length, if_pos h]
  · rw [calc_a_msdu_length, if_neg (by omega), if_neg (by omega)]
  · rw [calc_a_msdu_length, if_neg (by omega), if_pos (by omega)]

/-- Witness for C6: passthrough at `n = 1`, the padded formula at
`n = 3, L = 101`, and the size-exceeded failure at `n = 2, L = 7933`. -/
theorem claim_C6_a_msdu_length_witness :
    calc_a_msdu_length 1 5000 = .ok 5000 ∧
    calc_a_msdu_length 3 101 = .ok 311 ∧
    calc_a_msdu_length 2 7933 = .error .sizeExceeded :=
  ⟨(claim_C6_a_msdu_length 1 5000).1 (by decide),
    (claim_C6_a_msdu_length 3 101).2.1 (by decide) (by decide),
    (claim_C6_a_msdu_length 2 7933).2.2 (by decide) (by decide)⟩

/-- Ceiling of a rational expressed through the floor of its negation (used to
evaluate `Int.ceil` on concrete inputs). -/
theorem ceil_eq_neg_floor_neg (a : ℚ) : ⌈a⌉ = -⌊-a⌋ := by
  rw [Int.floor_neg, neg_neg]

/-- `calc_data_frame_ppdu_size(PSDU_length_bytes, modulation_rate, code_rate)`
(`core/helpers.py` lines 66-88): `N_cw = bytes*8 / (672*code_rate)`;
`N_cbpb = N_CBPB[int(modulation_rate/2)]`; `N_blks = ceil(N_cw*672/N_cbpb)`;
total symbols = preamble + header + `N_blks*512` + guard interval. `none`
models the `IndexError` an out-of-range modulation rate would raise. -/
def calc_data_frame_ppdu_size (PSDU_length_bytes : ℕ) (modulation_rate : ℕ)
    (code_rate : ℚ) : Option ℤ :=
  match N_CBPB[modulation_rate / 2]? with
  | none => none
  | some N_cbpb =>
    some (PPDU_PREAMBLE_LEN + PPDU_HEADER_LEN +
      ⌈(PSDU_length_bytes : ℚ) * 8 / (672 * code_rate) * 672 / (N_cbpb : ℚ)⌉ * 512 +
      PPDU_GI_LENGTH)

/-- C7: for a fixed (positive) code rate and a fixed modulation rate that is
present in the `N_CBPB` table, the data-frame PPDU size in symbols is
monotonically non-decreasing in the payload size. -/
theorem claim_C7_data_frame_monotone (p1 p2 Rm : ℕ) (Rc : ℚ) (s1 s2 : ℤ)
    (hp : p1 ≤ p2) (hrc : 0 < Rc)
    (h1 : calc_data_frame_ppdu_size p1 Rm Rc = some s1)
    (h2 : calc_data_frame_ppdu_size p2 Rm Rc = some s2) :
    s1 ≤ s2 := by
  unfold calc_data_frame_ppdu_size at h1 h2
  cases hc : N_CBPB[Rm / 2]? with
  | none => rw [hc] at h1; exact absurd h1 (by simp)
  | some c =>
    rw [hc] at h1 h2
    have hcmem : c ∈ N_CBPB := by
      obtain ⟨hi, hval⟩ := List.getElem?_eq_some.mp hc
      exact hval ▸ List.getElem_mem hi
    have hcpos : (0 : ℤ) < c := by
      have hall : ∀ x ∈ N_CBPB, (0 : ℤ) < x := by decide
      exact hall c hcmem
    have hcq : (0 : ℚ) < (c : ℚ) := by exact_mod_cast hcpos
    have hple : (p1 : ℚ) ≤ (p2 : ℚ) := by exact_mod_cast hp
    have hceil :
        ⌈(p1 : ℚ) * 8 / (672 * Rc) * 672 / (c : ℚ)⌉ ≤
        ⌈(p2 : ℚ) * 8 / (672 * Rc) * 672 / (c : ℚ)⌉ := by
      gcongr
    obtain rfl : _ = s1 := by simpa using h1
    obtain rfl : _ = s2 := by simpa using h2
    have := mul_le_mul_of_nonneg_right hceil (by norm_num : (0 : ℤ) ≤ 512)
    omega

/-- Witness for C7: payloads 100 and 200 bytes at modulation rate 2 and code
rate 1/2. -/
theorem claim_C7_data_frame_monotone_witness :
    calc_data_frame_ppdu_size 100 2 (1 / 2) = some 5440 ∧
    calc_data_frame_ppdu_size 200 2 (1 / 2) = some 6464 ∧
    (5440 : ℤ) ≤ 6464 :=
  ⟨by norm_num [calc_data_frame_ppdu_size, N_CBPB, PPDU_PREAMBLE_LEN,
      PPDU_HEADER_LEN, PPDU_GI_LENGTH, ceil_eq_neg_floor_neg],
    by norm_num [calc_data_frame_ppdu_size, N_CBPB, PPDU_PREAMBLE_LEN,
      PPDU_HEADER_LEN, PPDU_GI_LENGTH, ceil_eq_neg_floor_neg],
    claim_C7_data_frame_monotone 100 200 2 (1 / 2) 5440 6464 (by decide)
      (by norm_num)
      (by norm_num [calc_data_frame_ppdu_size, N_CBPB, PPDU_PREAMBLE_LEN,
      PPDU_HEADER_LEN, PPDU_GI_LENGTH, ceil_eq_neg_floor_neg])
      (by norm_num [calc_data_frame_ppdu_size, N_CBPB, PPDU_PREAMBLE_LEN,
      PPDU_HEADER_LEN, PPDU_GI_LENGTH, ceil_eq_neg_floor_neg])⟩

/-- Python `int(...)` truncation toward zero on a rational. -/
def pyInt (q : ℚ) : ℤ := if 0 ≤ q then ⌊q⌋ else -⌊-q⌋

/-- The carry-accumulation loop of `get_number_of_bft_allocations`
(`core/helpers.py` lines 185-189): per beacon interval, `carry += rate`,
store `int(carry)`, then `carry %= 1` (Python float modulo keeps
`carry - floor(carry)`). -/
def bft_carry_loop (rate : ℚ) : ℕ → ℚ → List ℤ
  | 0, _ => []
  | n + 1, carry =>
    pyInt (carry + rate) :: bft_carry_loop rate n (Int.fract (carry + rate))

/-- `numpy.roll(l, i)`: cyclic right shift by `i` positions. -/
def np_roll (l : List ℤ) (i : ℕ) : List ℤ :=
  l.rotate (l.length - i % l.length)

/-- The multi-user accumulation of `get_number_of_bft_allocations`
(`core/helpers.py` lines 195-197): start from `numpy.zeros_like` and add
`numpy.roll(arr, i)` for each user index `i`. -/
def multi_user_sum (arr : List ℤ) (num_of_users : ℕ) : List ℤ :=
  (List.range num_of_users).foldl
    (fun acc i => List.zipWith (· + ·) acc (np_roll arr i))
    (List.replicate arr.length 0)

/-- `get_number_of_bft_allocations(num_of_observed_bi, bi_duration,
bft_period, num_of_users)` (`core/helpers.py` lines 155-200). The
`numpy.random.randint(0, num_of_observed_bi)` draw taken in the fallback
branch (`bft_period` longer than the observed horizon) is passed in
explicitly as `rand_idx`; the returned `Bool` records whether the fallback
notice (`print(msg)`) was emitted. -/
def get_number_of_bft_allocations (num_of_observed_bi : ℕ)
    (bi_duration bft_period : ℤ) (num_of_users : ℕ) (rand_idx : ℕ) :
    List ℤ × Bool :=
  if bft_period > (num_of_observed_bi : ℤ) * bi_duration then
    let base := (List.range num_of_observed_bi).map
      (fun j => if j = rand_idx then (1 : ℤ) else 0)
    (multi_user_sum base num_of_users, true)
  else
    let rate : ℚ := (bi_duration : ℚ) / (bft_period : ℚ)
    (multi_user_sum (bft_carry_loop rate num_of_observed_bi 0) num_of_users,
      false)

/-- Rolling by zero positions is the identity. -/
theorem np_roll_zero (l : List ℤ) : np_roll l 0 = l := by
  unfold np_roll
  rw [Nat.zero_mod, Nat.sub_zero, List.rotate_length]

/-- Elementwise addition onto the zero list is the identity. -/
theorem zipWith_add_replicate_zero (l : List ℤ) :
    List.zipWith (· + ·) (List.replicate l.length 0) l = l := by
  induction l with
  | nil => rfl
  | cons hd tl ih => simp [List.replicate_succ, ih]

/-- With a single user, the multi-user accumulation returns the base array. -/
theorem multi_user_sum_one (arr : List ℤ) : multi_user_sum arr 1 = arr := by
  unfold multi_user_sum
  rw [show List.range 1 = [0] from rfl, List.foldl_cons, List.foldl_nil,
    np_roll_zero, zipWith_add_replicate_zero]

/-- A one-hot list over `range n` sums to zero when the hot index is out of
range. -/
theorem onehot_sum_of_ge (n r : ℕ) (h : n ≤ r) :
    (((List.range n).map (fun j => if j = r then (1 : ℤ) else 0)).sum) = 0 := by
  induction n with
  | zero => rfl
  | succ n0 ih =>
    rw [List.range_succ, List.map_append, List.sum_append,
      ih (Nat.le_of_succ_le h)]
    simp only [List.map_cons, List.map_nil, List.sum_cons, List.sum_nil]
    rw [if_neg (by omega)]
    norm_num

/-- A one-hot list over `range n` sums to one when the hot index is in
range. -/
theorem onehot_sum_of_lt (n r : ℕ) (h : r < n) :
    (((List.range n).map (fun j => if j = r then (1 : ℤ) else 0)).sum) = 1 := by
  induction n with
  | zero => exact absurd h (Nat.not_lt_zero r)
  | succ n0 ih =>
    rw [List.range_succ, List.map_append, List.sum_append]
    by_cases hr : r < n0
    · rw [ih hr]
      simp only [List.map_cons, List.map_nil, List.sum_cons, List.sum_nil]
      rw [if_neg (by omega)]
      norm_num
    · have : n0 = r := by omega
      subst this
      rw [onehot_sum_of_ge n0 n0 le_rfl]
      simp

/-- C8: when the target beamforming period exceeds the whole observed horizon
and there is a single user, the scheduler returns the one-hot array at the
randomly drawn beacon-interval index — the entries sum to exactly 1, not 0 —
and the fallback notice is emitted. -/
theorem claim_C8_bft_fallback (n : ℕ) (bi p : ℤ) (r : ℕ)
    (hp : (n : ℤ) * bi < p) (hr : r < n) :
    (get_number_of_bft_allocations n bi p 1 r).2 = true ∧
    (get_number_of_bft_allocations n bi p 1 r).1 =
      (List.range n).map (fun j => if j = r then (1 : ℤ) else 0) ∧
    ((get_number_of_bft_allocations n bi p 1 r).1).sum = 1 := by
  unfold get_number_of_bft_allocations
  rw [if_pos hp]
  refine ⟨rfl, ?_, ?_⟩
  · exact multi_user_sum_one _
  · simp only [multi_user_sum_one]
    exact onehot_sum_of_lt n r hr

/-- Witness for C8 at 3 observed beacon intervals of 5 ns, period 100 ns,
drawn index 1. -/
theorem claim_C8_bft_fallback_witness :
    (get_number_of_bft_allocations 3 5 100 1 1).2 = true ∧
    (get_number_of_bft_allocations 3 5 100 1 1).1 =
      (List.range 3).map (fun j => if j = 1 then (1 : ℤ) else 0) ∧
    ((get_number_of_bft_allocations 3 5 100 1 1).1).sum = 1 :=
  claim_C8_bft_fallback 3 5 100 1 (by decide) (by decide)

/-- C5 counterexample: with identical inputs (2 beacon intervals of 1 ns,
period 3 ns, one user) the output depends on the internal random draw, so a
complete run reaching this branch is not deterministic in its inputs. -/
theorem claim_C5_counterexample :
    get_number_of_bft_allocations 2 1 3 1 0 ≠
      get_number_of_bft_allocations 2 1 3 1 1 := by
  decide

/-- C5 (amended): whenever the beamforming period fits within the observed
horizon, the scheduler's output is independent of the random draw — the only
internal source of nondeterminism is the fallback branch. -/
theorem claim_C5_deterministic_in_horizon (n : ℕ) (bi p : ℤ) (u r1 r2 : ℕ)
    (h : p ≤ (n : ℤ) * bi) :
    get_number_of_bft_allocations n bi p u r1 =
      get_number_of_bft_allocations n bi p u r2 := by
  unfold get_number_of_bft_allocations
  rw [if_neg (not_lt.mpr h), if_neg (not_lt.mpr h)]

/-- Witness for the amended C5: period 3 ns inside the horizon 2 × 2 ns. -/
theorem claim_C5_deterministic_in_horizon_witness :
    get_number_of_bft_allocations 2 2 3 1 0 =
      get_number_of_bft_allocations 2 2 3 1 5 :=
  claim_C5_deterministic_in_horizon 2 2 3 1 0 5 (by decide)

/-- Round half to even, the rounding used by both `numpy.round` and the
Python built-in `round`. -/
def roundHalfEven (q : ℚ) : ℤ :=
  if Int.fract q < 1 / 2 then ⌊q⌋
  else if 1 / 2 < Int.fract q then ⌊q⌋ + 1
  else if ⌊q⌋ % 2 = 0 then ⌊q⌋ else ⌊q⌋ + 1

/-- `numpy` rounding to a number of decimal places (`ber_row.round(power)` in
`get_optimal_mcs`). -/
def np_round_to (decimals : ℕ) (q : ℚ) : ℚ :=
  (roundHalfEven (q * 10 ^ decimals) : ℚ) / 10 ^ decimals

/-- Error raised by `get_optimal_mcs` when no scheme satisfies the BER
constraint: `RuntimeError(f'BER {max_BER} unattainable at {Eb_N0} dB.')`. -/
inductive McsError where
  | constraintUnsatisfiable
  deriving DecidableEq, Repr

/-- `get_optimal_mcs(Eb_N0, max_BER, ber_results_abs_path)`
(`core/helpers.py` lines 16-36), for the signal-to-noise row `ber_row`
already looked up from the externally supplied table: each entry is a pair
(scheme index, stored BER). `power = int(abs(log10(max_BER)))`, which for the
thresholds `max_BER = 10^-power` used by the framework is exactly `power`;
the stored BERs are rounded to `power` decimals, the qualifying scheme
indices are collected, and their maximum is returned; if none qualify the
bare `except` raises the constraint error, yielding no partial result. -/
def get_optimal_mcs (ber_row : List (ℚ × ℚ)) (power : ℕ) :
    Except McsError ℚ :=
  match ((ber_row.filter
      (fun mb => decide (np_round_to power mb.2 ≤ 1 / 10 ^ power))).map
      Prod.fst).max? with
  | none => .error .constraintUnsatisfiable
  | some mcs => .ok mcs

/-- C4: scheme selection rounds each stored BER to the decimal precision of
the threshold and returns the highest scheme index among those whose rounded
BER is at or below the threshold; when no scheme qualifies it fails with the
constraint-unsatisfiable error and returns no scheme. -/
theorem claim_C4_select_scheme (ber_row : List (ℚ × ℚ)) (power : ℕ) :
    (∀ m, get_optimal_mcs ber_row power = .ok m →
      (∃ b, (m, b) ∈ ber_row ∧ np_round_to power b ≤ 1 / 10 ^ power) ∧
      (∀ mb ∈ ber_row, np_round_to power mb.2 ≤ 1 / 10 ^ power → mb.1 ≤ m)) ∧
    ((∀ mb ∈ ber_row, ¬ (np_round_to power mb.2 ≤ 1 / 10 ^ power)) →
      get_optimal_mcs ber_row power = .error .constraintUnsatisfiable) := by
  have anti : Std.Antisymm ((· : ℚ) ≤ ·) := ⟨fun h1 h2 => le_antisymm h1 h2⟩
  constructor
  · intro m hm
    unfold get_optimal_mcs at hm
    cases hq : ((ber_row.filter
        (fun mb => decide (np_round_to power mb.2 ≤ 1 / 10 ^ power))).map
        Prod.fst).max? with
    | none => rw [hq] at hm; exact absurd hm (by simp)
    | some m0 =>
      rw [hq] at hm
      obtain rfl : m0 = m := by simpa using hm
      rw [List.max?_eq_some_iff (fun a => le_refl a)
        (fun a b => max_choice a b) (fun a b c => max_le_iff)] at hq
      obtain ⟨hmem, hmax⟩ := hq
      constructor
      · obtain ⟨mb, hmb, heq⟩ := List.mem_map.mp hmem
        obtain ⟨hmem2, hpred⟩ := List.mem_filter.mp hmb
        refine ⟨mb.2, ?_, by simpa using hpred⟩
        have hpair : (mb.1, mb.2) = mb := rfl
        rw [← heq, hpair]
        exact hmem2
      · intro mb hmb hpred
        exact hmax mb.1
          (List.mem_map.mpr ⟨mb, List.mem_filter.mpr ⟨hmb, by simpa using hpred⟩, rfl⟩)
  · intro hall
    unfold get_optimal_mcs
    have hfil : ber_row.filter
        (fun mb => decide (np_round_to power mb.2 ≤ 1 / 10 ^ power)) = [] := by
      rw [List.filter_eq_nil_iff]
      intro a ha
      simpa using hall a ha
    rw [hfil]
    rfl

/-- Witness for C4: a single-scheme row whose rounded BER (1/2) exceeds the
threshold `10^-5`, so selection fails with the constraint error. -/
theorem claim_C4_select_scheme_witness :
    get_optimal_mcs [((1 : ℚ), 1 / 2)] 5 = .error .constraintUnsatisfiable :=
  (claim_C4_select_scheme [((1 : ℚ), 1 / 2)] 5).2 (by
    intro mb hmb
    simp only [List.mem_singleton] at hmb
    subst hmb
    norm_num [np_round_to, roundHalfEven, Int.fract])

/-- `calc_control_frame_ppdu_size(payload_bytes)` (`core/helpers.py` lines
39-63): `N_cw = 1 + ceil((payload_bytes-6)*8 / L_CWD)`; parity symbols
`168*N_cw`; data symbols `(payload_bytes+5)*8`; 32-fold spreading; plus the
control preamble and header. The Python value is a numpy float of integral
value; it is embedded as the integer it denotes. -/
def calc_control_frame_ppdu_size (payload_bytes : ℤ) : ℤ :=
  CONTROL_PPDU_PREAMBLE_LEN + CONTROL_PPDU_HEADER_LEN +
    (168 * (1 + ⌈(((payload_bytes - 6) * 8 : ℤ) : ℚ) / (L_CWD : ℚ)⌉) +
      (payload_bytes + 5) * 8) * 32

/-- Error raised when a duration is read before being generated
(`RuntimeError('Tried fetching unset duration.')`; for the two durations
that are not declared as class attributes — guard time and
data-with-overhead — the unset access raises `AttributeError` instead, also
an error and never a default value). -/
inductive DurationError where
  | unsetDuration
  deriving DecidableEq, Repr

/-- State of a `DurationGenerator` (`core/duration_generator.py`): one
optional field per duration, all unset on a fresh instance. -/
structure DurationGenerator where
  guard_time_duration : Option ℤ := none
  bti_duration : Option ℤ := none
  bft_duration : Option ℚ := none
  data_ppdu_duration : Option ℤ := none
  cts_duration : Option ℤ := none
  ack_duration : Option ℤ := none
  data_with_overhead_duration : Option ℤ := none
  deriving DecidableEq, Repr

/-- A freshly constructed `DurationGenerator()`. -/
def durationGeneratorInit : DurationGenerator := {}

/-- `DurationGenerator.check_existence_and_return_duration`
(`core/duration_generator.py` lines 216-224). -/
def check_existence_and_return_duration {α : Type} (duration : Option α) :
    Except DurationError α :=
  match duration with
  | none => .error .unsetDuration
  | some d => .ok d

/-- Value computed by `generate_guard_time_duration(bi_duration)`:
`ceil((20ppm * bi_duration + SIFS + 100) * 1e-3)` microseconds, in ns. -/
def guard_time_value (bi_duration : ℤ) : ℤ :=
  ⌈((1 / 50000 : ℚ) * bi_duration + SIFS_NS + 100) * (1 / 1000)⌉ * 1000

/-- `generate_guard_time_duration` stores the guard-time value. -/
def generate_guard_time_duration (dg : DurationGenerator) (bi_duration : ℤ) :
    DurationGenerator :=
  { dg with guard_time_duration := some (guard_time_value bi_duration) }

/-- Value computed by `generate_bti_duration(num_of_allocations)`: beacon
payload `66 + (2 + 15*n) + 34` through the control-frame size, divided by the
symbol rate and rounded (`numpy.round(...).astype(int)`). -/
def bti_value (num_of_allocations : ℤ) : ℤ :=
  roundHalfEven
    ((calc_control_frame_ppdu_size (66 + (2 + 15 * num_of_allocations) + 34) : ℚ) /
      SYMBOL_RATE_GHZ)

/-- `generate_bti_duration` stores the BTI value. -/
def generate_bti_duration (dg : DurationGenerator) (num_of_allocations : ℤ) :
    DurationGenerator :=
  { dg with bti_duration := some (bti_value num_of_allocations) }

/-- Value computed by `generate_bft_duration` (`core/duration_generator.py`
lines 54-147): sector-sweep phase (with or without responder TXSS) plus the
beam-refinement phase with a minimum-2-sector quota of 25% per side. -/
def bft_value (i_antennas i_antenna_sectors r_antennas r_antenna_sectors : ℤ)
    (enable_SLS enable_r_TXSS : Bool) : ℚ :=
  let sls_part : ℚ :=
    if enable_SLS then
      (if enable_r_TXSS then
        ((roundHalfEven
            (((calc_control_frame_ppdu_size 24 *
                (i_antennas * i_antenna_sectors * r_antennas +
                  r_antennas * r_antenna_sectors * i_antennas) +
              calc_control_frame_ppdu_size 28 +
              calc_control_frame_ppdu_size 28 : ℤ) : ℚ) / SYMBOL_RATE_GHZ) +
          (SBIFS_NS * (i_antenna_sectors - 1) * i_antennas * r_antennas +
            LBIFS_NS * i_antennas * r_antennas +
            MBIFS_NS * 1 +
            SBIFS_NS * (r_antenna_sectors - 1) * r_antennas * i_antennas +
            LBIFS_NS * i_antennas * r_antennas +
            (MBIFS_NS * (if r_antennas = 1 then 1 else 0) +
              LBIFS_NS * (if 1 < r_antennas then 1 else 0)) +
            (MBIFS_NS * (if r_antennas = 1 then 1 else 0) +
              LBIFS_NS * (if 1 < r_antennas then 1 else 0))) : ℤ) : ℚ)
      else
        ((roundHalfEven
            (((calc_control_frame_ppdu_size 24 *
                (i_antennas * i_antenna_sectors * r_antennas + 1) +
              calc_control_frame_ppdu_size 28 +
              calc_control_frame_ppdu_size 28 : ℤ) : ℚ) / SYMBOL_RATE_GHZ) +
          (SBIFS_NS * (i_antenna_sectors - 1) * i_antennas * r_antennas +
            LBIFS_NS * i_antennas * r_antennas +
            MBIFS_NS * 1 +
            0 +
            0 +
            (MBIFS_NS * (if r_antennas = 1 then 1 else 0) +
              LBIFS_NS * (if 1 < r_antennas then 1 else 0)) +
            (MBIFS_NS * (if r_antennas = 1 then 1 else 0) +
              LBIFS_NS * (if 1 < r_antennas then 1 else 0))) : ℤ) : ℚ)) +
      (SIFS_NS : ℚ)
    else 0
  let i_brp0 := ⌈(i_antenna_sectors : ℚ) * (1 / 4)⌉
  let i_brp_sectors := if i_brp0 < 2 then 2 else i_brp0
  let r_brp0 := ⌈(r_antenna_sectors : ℚ) * (1 / 4)⌉
  let r_brp_sectors := if r_brp0 < 2 then 2 else r_brp0
  sls_part +
    (((calc_control_frame_ppdu_size 42 + i_brp_sectors * AGC_AND_TRN_LENGTH +
      calc_control_frame_ppdu_size 42 + r_brp_sectors * AGC_AND_TRN_LENGTH : ℤ) : ℚ) /
      SYMBOL_RATE_GHZ + (SIFS_NS : ℚ))

/-- `generate_bft_duration` stores the BFT value. -/
def generate_bft_duration (dg : DurationGenerator)
    (i_antennas i_antenna_sectors r_antennas r_antenna_sectors : ℤ)
    (enable_SLS enable_r_TXSS : Bool) : DurationGenerator :=
  { dg with bft_duration := some (bft_value i_antennas i_antenna_sectors
      r_antennas r_antenna_sectors enable_SLS enable_r_TXSS) }

/-- Value computed by `generate_data_ppdu_duration(payload_length, mcs)`, for
the `(modulation rate, code rate)` pair looked up from the externally
supplied MCS table: `round(calc_data_frame_ppdu_size(...) / symbol rate)`. -/
def data_ppdu_value (payload_length Rm : ℕ) (Rc : ℚ) : Option ℤ :=
  (calc_data_frame_ppdu_size payload_length Rm Rc).map
    (fun size => roundHalfEven ((size : ℚ) / SYMBOL_RATE_GHZ))

/-- `generate_data_ppdu_duration` stores the data-PPDU value. -/
def generate_data_ppdu_duration (dg : DurationGenerator) (payload_length Rm : ℕ)
    (Rc : ℚ) : Option DurationGenerator :=
  (data_ppdu_value payload_length Rm Rc).map
    (fun v => { dg with data_ppdu_duration := some v })

/-- Value computed by `generate_cts_duration()`: fixed 20-byte payload
through the control-frame size. -/
def cts_value : ℤ :=
  roundHalfEven ((calc_control_frame_ppdu_size 20 : ℚ) / SYMBOL_RATE_GHZ)

/-- `generate_cts_duration` stores the CTS value. -/
def generate_cts_duration (dg : DurationGenerator) : DurationGenerator :=
  { dg with cts_duration := some cts_value }

/-- Value computed by `generate_ack_duration(num_of_mpdu)`: 14-byte payload
for a single MPDU, 32-byte block acknowledgement otherwise. -/
def ack_value (num_of_mpdu : ℤ) : ℤ :=
  roundHalfEven
    ((calc_control_frame_ppdu_size (if num_of_mpdu = 1 then 14 else 32) : ℚ) /
      SYMBOL_RATE_GHZ)

/-- `generate_ack_duration` stores the ACK value. -/
def generate_ack_duration (dg : DurationGenerator) (num_of_mpdu : ℤ) :
    DurationGenerator :=
  { dg with ack_duration := some (ack_value num_of_mpdu) }

/-- `generate_data_with_overhead_duration(enable_cts, enable_ack)`
(`core/duration_generator.py` lines 180-193): reads the data-PPDU (and
optionally CTS and ACK) durations through their getters — so it fails if any
required one is unset — and stores data + DIFS (+ CTS + SIFS) (+ ACK + SIFS). -/
def generate_data_with_overhead_duration (dg : DurationGenerator)
    (enable_cts enable_ack : Bool) : Except DurationError DurationGenerator := do
  let d ← check_existence_and_return_duration dg.data_ppdu_duration
  let base := d + DIFS_NS
  let withCts ←
    if enable_cts then do
      let c ← check_existence_and_return_duration dg.cts_duration
      pure (base + (c + SIFS_NS))
    else pure base
  let total ←
    if enable_ack then do
      let a2 ← check_existence_and_return_duration dg.ack_duration
      pure (withCts + (a2 + SIFS_NS))
    else pure withCts
  pure { dg with data_with_overhead_duration := some total }

/-- `get_guard_time_duration`. -/
def get_guard_time_duration (dg : DurationGenerator) : Except DurationError ℤ :=
  check_existence_and_return_duration dg.guard_time_duration

/-- `get_bti_duration`. -/
def get_bti_duration (dg : DurationGenerator) : Except DurationError ℤ :=
  check_existence_and_return_duration dg.bti_duration

/-- `get_bft_duration`. -/
def get_bft_duration (dg : DurationGenerator) : Except DurationError ℚ :=
  check_existence_and_return_duration dg.bft_duration

/-- `get_data_ppdu_duration`. -/
def get_data_ppdu_duration (dg : DurationGenerator) : Except DurationError ℤ :=
  check_existence_and_return_duration dg.data_ppdu_duration

/-- `get_cts_duration`. -/
def get_cts_duration (dg : DurationGenerator) : Except DurationError ℤ :=
  check_existence_and_return_duration dg.cts_duration

/-- `get_ack_duration`. -/
def get_ack_duration (dg : DurationGenerator) : Except DurationError ℤ :=
  check_existence_and_return_duration dg.ack_duration

/-- `get_data_with_overhead_duration`. -/
def get_data_with_overhead_duration (dg : DurationGenerator) :
    Except DurationError ℤ :=
  check_existence_and_return_duration dg.data_with_overhead_duration

/-- C9: for every duration kind managed by the `DurationGenerator` (guard
time, BTI, BFT, data PPDU, CTS, ACK, data-with-overhead), reading through the
getter while the duration is unset yields an error, never a default value;
and after the corresponding `generate_*` operation the getter returns exactly
the generated value. -/
theorem claim_C9_duration_access (dg : DurationGenerator)
    (bi n_alloc n_mpdu ia isec ra rsec : ℤ) (sls rtxss cts ack : Bool)
    (p Rm : ℕ) (Rc : ℚ) :
    (dg.guard_time_duration = none →
      get_guard_time_duration dg = .error .unsetDuration) ∧
    (dg.bti_duration = none → get_bti_duration dg = .error .unsetDuration) ∧
    (dg.bft_duration = none → get_bft_duration dg = .error .unsetDuration) ∧
    (dg.data_ppdu_duration = none →
      get_data_ppdu_duration dg = .error .unsetDuration) ∧
    (dg.cts_duration = none → get_cts_duration dg = .error .unsetDuration) ∧
    (dg.ack_duration = none → get_ack_duration dg = .error .unsetDuration) ∧
    (dg.data_with_overhead_duration = none →
      get_data_with_overhead_duration dg = .error .unsetDuration) ∧
    (get_guard_time_duration (generate_guard_time_duration dg bi) =
      .ok (guard_time_value bi)) ∧
    (get_bti_duration (generate_bti_duration dg n_alloc) =
      .ok (bti_value n_alloc)) ∧
    (get_bft_duration (generate_bft_duration dg ia isec ra rsec sls rtxss) =
      .ok (bft_value ia isec ra rsec sls rtxss)) ∧
    (∀ v, data_ppdu_value p Rm Rc = some v →
      ∀ dg', generate_data_ppdu_duration dg p Rm Rc = some dg' →
        get_data_ppdu_duration dg' = .ok v) ∧
    (get_cts_duration (generate_cts_duration dg) = .ok cts_value) ∧
    (get_ack_duration (generate_ack_duration dg n_mpdu) =
      .ok (ack_value n_mpdu)) ∧
    (∀ dg' v, generate_data_with_overhead_duration dg cts ack = .ok dg' →
      dg'.data_with_overhead_duration = some v →
      get_data_with_overhead_duration dg' = .ok v) := by
  refine ⟨?_, ?_, ?_, ?_, ?_, ?_, ?_, rfl, rfl, rfl, ?_, rfl, rfl, ?_⟩
  · intro h
    simp [get_guard_time_duration, check_existence_and_return_duration, h]
  · intro h
    simp [get_bti_duration, check_existence_and_return_duration, h]
  · intro h
    simp [get_bft_duration, check_existence_and_return_duration, h]
  · intro h
    simp [get_data_ppdu_duration, check_existence_and_return_duration, h]
  · intro h
    simp [get_cts_duration, check_existence_and_return_duration, h]
  · intro h
    simp [get_ack_duration, check_existence_and_return_duration, h]
  · intro h
    simp [get_data_with_overhead_duration, check_existence_and_return_duration, h]
  · intro v hv dg' hdg'
    unfold generate_data_ppdu_duration at hdg'
    rw [hv] at hdg'
    obtain rfl : _ = dg' := by simpa using hdg'
    rfl
  · intro dg' v hok hfield
    simp [get_data_with_overhead_duration, check_existence_and_return_duration,
      hfield]

/-- Witness for C9: the fresh generator errors on an unset read, and the
composite data-with-overhead duration generated from set fields is returned
by its getter. -/
theorem claim_C9_duration_access_witness :
    get_guard_time_duration durationGeneratorInit = .error .unsetDuration ∧
    get_data_with_overhead_duration
      { durationGeneratorInit with
        data_ppdu_duration := some 10000, cts_duration := some 100,
        ack_duration := some 200,
        data_with_overhead_duration := some 29300 } = .ok 29300 :=
  ⟨(claim_C9_duration_access durationGeneratorInit 0 0 0 0 0 0 0
      false false false false 0 0 0).1 rfl,
    (claim_C9_duration_access
      { durationGeneratorInit with
        data_ppdu_duration := some 10000, cts_duration := some 100,
        ack_duration := some 200 } 0 0 0 0 0 0 0
      false false true true 0 0 0).2.2.2.2.2.2.2.2.2.2.2.2.2
      { durationGeneratorInit with
        data_ppdu_duration := some 10000, cts_duration := some 100,
        ack_duration := some 200,
        data_with_overhead_duration := some 29300 } 29300 rfl rfl⟩
